import Mathlib

/-
Verification of the extraction client in src/vianu/fraudcrawler/src/zyteapi.py.

Design of the shallow embedding:

* A JSON object returned by the extraction API is modelled as an association
  list of string keys to string values (Record).  The Python assignment
  product_data["url"] = url is setKey, which overwrites any existing binding
  for the key.  Option values that the source nests inside the configuration
  (booleans, the viewport object) are flattened to opaque string values; no
  theorem below inspects them.

* The outcome of one HTTP POST on the wire is HttpResult: either a response
  carrying a status code together with the result of parsing its body as a
  structured record (none when the body does not parse as a record), or a
  transport error (connection failure, timeout, or any other raised
  exception).

* The wire is an environment env : Nat -> HttpResult giving the outcome of
  the attempt with that index for one URL; a job pairs a URL with its wire
  environment.

* The two retry loops are embedded with a fuel argument bounding recursion
  depth while the loop guard attempts < maxRetries is kept verbatim from the
  source; every top level entry point passes fuel = maxRetries, which is
  enough fuel for the guard to be the only exit taken.

* Each run also returns a trace of the externally visible events: one
  Event.call per invocation of the single shot request executor, carrying
  the exact request it issues (endpoint, basic auth user, payload, explicit
  timeout if any), and one Event.sleep per retry delay that elapses.

* The Python coroutine _async_get_details_for_url reads the loop variable
  product after the loop; with max_retries = 0 that variable is unbound and
  the coroutine would raise, so theorems about the concurrent path assume
  1 <= maxRetries, matching the documented RetryPolicy invariant
  maxAttempts >= 1 and the constructor default max_retries = 1.
-/

namespace Zyte

/-- A structured record: an association list from string keys to opaque
string values, modelling a parsed JSON object. -/
abbrev Record : Type := List (String × String)

/-- Set a key in a record, overwriting any existing binding, as the Python
statement product_data["url"] = url does on a dict. -/
def setKey (r : Record) (k v : String) : Record :=
  (k, v) :: r.filter (fun p => p.1 != k)

/-- Look a key up in a record (first binding wins). -/
def getKey (r : Record) (k : String) : Option String :=
  (r.find? (fun p => p.1 == k)).map (fun p => p.2)

/-- Outcome of one HTTP POST on the wire: a response with its status code
and the result of parsing its body as a structured record, or a transport
error (connection failure, timeout, or any other raised exception). -/
inductive HttpResult where
  | response (status : Nat) (body : Option Record)
  | transportError
deriving DecidableEq

/-- An outgoing HTTP request as the client builds it: target endpoint,
basic auth user name (the API key; the password is always empty), JSON
payload, and the explicit network timeout passed with the call, if any. -/
structure HttpRequest where
  target : String
  authUser : String
  payload : Record
  timeout : Option Nat
deriving DecidableEq

/-- Externally visible events of one run: an executor invocation carrying
the request it issues, or a retry delay of the given number of seconds. -/
inductive Event where
  | call (req : HttpRequest)
  | sleep (seconds : Nat)
deriving DecidableEq

/-- Number of executor invocations recorded in a trace. -/
def countCalls : List Event → Nat
  | [] => 0
  | Event.call _ :: rest => countCalls rest + 1
  | Event.sleep _ :: rest => countCalls rest

/-- The fixed extraction endpoint (class attribute _endpoint). -/
def endpoint : String := "https://api.zyte.com/v1/extract"

/-- The fixed network timeout for synchronous calls (class attribute
_requests_timeout). -/
def requestsTimeout : Nat := 10

/-- The fixed configuration template (class attribute _config), flattened
to string values; only its merger with the url key matters below. -/
def config : Record :=
  [("javascript", "false"), ("browserHtml", "false"), ("screenshot", "false"),
   ("productOptions.extractFrom", "httpResponseBody"),
   ("httpResponseBody", "true"), ("geolocation", "CH"),
   ("viewport.width", "1280"), ("viewport.height", "1080"),
   ("actions", ""), ("product", "true")]

/-- The request issued by one synchronous attempt in get_details:
requests.post with json being the url key merged into the configuration,
basic auth from the API key, and timeout=_requests_timeout. -/
def seqRequest (apiKey url : String) : HttpRequest :=
  HttpRequest.mk endpoint apiKey (setKey config "url" url) (some requestsTimeout)

/-- The request issued by one concurrent attempt in _aiohttp_post:
session.post with json being a copy of the configuration with the url key
set, basic auth from the API key, and no timeout argument at all (the
library default applies, not _requests_timeout). -/
def asyncRequest (apiKey url : String) : HttpRequest :=
  HttpRequest.mk endpoint apiKey (setKey config "url" url) Option.none

/-- Result normalization of one synchronous attempt in get_details: a
response with status code exactly 200 whose body parses as a record yields
that record with the url key injected; any other status, a parse failure
or a transport error yields no result (the except branch). -/
def seqAttempt (url : String) (res : HttpResult) : Option Record :=
  match res with
  | HttpResult.response status body =>
    if status = 200 then
      match body with
      | some product_data => some (setKey product_data "url" url)
      | Option.none => Option.none
    else Option.none
  | HttpResult.transportError => Option.none

/-- Result of _aiohttp_post: raise_for_status raises exactly when the
status code is at least 400, so any response below 400 whose body parses
as a record is returned; everything else raises, yielding no result. -/
def aiohttp_post (res : HttpResult) : Option Record :=
  match res with
  | HttpResult.response status body =>
    if status < 400 then body else Option.none
  | HttpResult.transportError => Option.none

/-- One concurrent attempt in _async_get_details_for_url: the result of
_aiohttp_post with the url key injected; a raise anywhere leaves the
product at None for this iteration. -/
def asyncAttempt (url : String) (res : HttpResult) : Option Record :=
  (aiohttp_post res).map (fun product => setKey product "url" url)

/-- The per URL retry loop inside get_details.  The guard
attempts < maxRetries is the loop condition of the source; fuel only
bounds the recursion and every caller passes fuel = maxRetries.  On a
successful attempt the record is returned and the loop breaks with no
further sleep; on a failed attempt the counter advances and a retry delay
elapses exactly when attempts remain. -/
def seqLoopF (apiKey url : String) (env : Nat → HttpResult)
    (retryDelay maxRetries : Nat) : Nat → Nat → Option Record × List Event
  | 0, _ => (Option.none, [])
  | fuel + 1, attempts =>
    if attempts < maxRetries then
      match seqAttempt url (env attempts) with
      | some product => (some product, [Event.call (seqRequest apiKey url)])
      | Option.none =>
        ((seqLoopF apiKey url env retryDelay maxRetries fuel (attempts + 1)).1,
          Event.call (seqRequest apiKey url) ::
            ((if attempts + 1 < maxRetries then [Event.sleep retryDelay] else []) ++
              (seqLoopF apiKey url env retryDelay maxRetries fuel (attempts + 1)).2))
    else (Option.none, [])

/-- The retry loop of get_details for one URL, entered with attempts = 0
and enough fuel for the guard to be the only exit. -/
def seqFetchURL (apiKey url : String) (env : Nat → HttpResult)
    (retryDelay maxRetries : Nat) : Option Record × List Event :=
  seqLoopF apiKey url env retryDelay maxRetries maxRetries 0

/-- The loop body of _async_get_details_for_url.  Every iteration resets
product to None, performs one attempt (asyncAttempt, which yields None
when anything raised), advances the counter, and sleeps exactly when
attempts remain, on success and failure alike; the loop never breaks
early and the product of the last iteration is returned. -/
def asyncLoopF (apiKey url : String) (env : Nat → HttpResult)
    (retryDelay maxRetries : Nat) :
    Nat → Nat → Option Record → Option Record × List Event
  | 0, _, product => (product, [])
  | fuel + 1, attempts, product =>
    if attempts < maxRetries then
      ((asyncLoopF apiKey url env retryDelay maxRetries fuel (attempts + 1)
          (asyncAttempt url (env attempts))).1,
        Event.call (asyncRequest apiKey url) ::
          ((if attempts + 1 < maxRetries then [Event.sleep retryDelay] else []) ++
            (asyncLoopF apiKey url env retryDelay maxRetries fuel (attempts + 1)
              (asyncAttempt url (env attempts))).2))
    else (product, [])

/-- The coroutine _async_get_details_for_url: run the loop from
attempts = 0 (the initial product placeholder is None) and return the
product of the last iteration together with the trace. -/
def async_get_details_for_url (apiKey url : String) (env : Nat → HttpResult)
    (retryDelay maxRetries : Nat) : Option Record × List Event :=
  asyncLoopF apiKey url env retryDelay maxRetries maxRetries 0 Option.none

/-- The worker coroutine async_get_details over the input queue, modelled
as the list of items the worker will dequeue: for each URL item one result
is put on the output queue, and on dequeuing the None sentinel the worker
breaks immediately, leaving the rest of the input queue untouched.  The
value returned is the pair of the output queue contents produced by this
worker and the input queue contents remaining after it exits.  An empty
list would have the real worker block forever on queue_in.get; the model
returns instead, and every theorem below supplies a sentinel terminated
queue, never reaching that case. -/
def async_get_details (apiKey : String) (retryDelay maxRetries : Nat) :
    List (Option (String × (Nat → HttpResult))) →
      List (Option Record) × List (Option (String × (Nat → HttpResult)))
  | [] => ([], [])
  | Option.none :: rest => ([], rest)
  | some job :: rest =>
    ((async_get_details_for_url apiKey job.1 job.2 retryDelay maxRetries).1
        :: (async_get_details apiKey retryDelay maxRetries rest).1,
      (async_get_details apiKey retryDelay maxRetries rest).2)

/-- The synchronous batch entry point get_details: iterate over the URLs
in order, run the per URL retry loop, append the record on success and
drop the URL entirely when all attempts are exhausted. -/
def get_details (apiKey : String) (retryDelay maxRetries : Nat) :
    List (String × (Nat → HttpResult)) → List Record
  | [] => []
  | job :: rest =>
    match (seqFetchURL apiKey job.1 job.2 retryDelay maxRetries).1 with
    | some product => product :: get_details apiKey retryDelay maxRetries rest
    | Option.none => get_details apiKey retryDelay maxRetries rest

/-- The client object: the constructor stores the API key, the retry
configuration and async_limit_per_host (defaults in the source: 1, 10, 5). -/
structure ZyteAPIClient where
  apiKey : String
  maxRetries : Nat
  retryDelay : Nat
  asyncLimitPerHost : Nat

/-- get_details as a method: it reads the stored key and retry settings. -/
def ZyteAPIClient.getDetails (c : ZyteAPIClient)
    (jobs : List (String × (Nat → HttpResult))) : List Record :=
  get_details c.apiKey c.retryDelay c.maxRetries jobs

/-- async_get_details as a method: it reads the stored key and retry
settings; nothing in the fetching code reads asyncLimitPerHost. -/
def ZyteAPIClient.asyncGetDetails (c : ZyteAPIClient)
    (queueIn : List (Option (String × (Nat → HttpResult)))) :
    List (Option Record) × List (Option (String × (Nat → HttpResult))) :=
  async_get_details c.apiKey c.retryDelay c.maxRetries queueIn

/-- Counting executor invocations distributes over trace concatenation. -/
lemma countCalls_append (a b : List Event) :
    countCalls (a ++ b) = countCalls a + countCalls b := by
  induction a with
  | nil => simp [countCalls]
  | cons e rest ih =>
    cases e with
    | call req =>
      simp only [List.cons_append, countCalls, List.append_eq, ih]
      omega
    | sleep s => simp only [List.cons_append, countCalls, List.append_eq, ih]

/-- A conditional retry delay contributes no executor invocation. -/
lemma countCalls_sleepOpt (c : Prop) [Decidable c] (d : Nat) :
    countCalls (if c then [Event.sleep d] else []) = 0 := by
  split <;> simp [countCalls]

/-- Setting a key makes the subsequent lookup of that key return the new
value, whatever the record previously held for it. -/
lemma getKey_setKey (r : Record) (k v : String) :
    getKey (setKey r k v) k = some v := by
  simp [getKey, setKey, List.find?]

/-- A successful synchronous attempt always returns a record whose url key
holds the requested URL. -/
lemma seqAttempt_tag (url : String) (res : HttpResult) (r : Record)
    (h : seqAttempt url res = some r) : getKey r "url" = some url := by
  cases res with
  | transportError => simp [seqAttempt] at h
  | response status body =>
    cases body with
    | none => simp [seqAttempt] at h
    | some pd =>
      by_cases hs : status = 200
      · simp only [seqAttempt, hs, if_true, Option.some.injEq] at h
        rw [← h]
        exact getKey_setKey pd "url" url
      · simp [seqAttempt, hs] at h

/-- A successful concurrent attempt always returns a record whose url key
holds the requested URL. -/
lemma asyncAttempt_tag (url : String) (res : HttpResult) (r : Record)
    (h : asyncAttempt url res = some r) : getKey r "url" = some url := by
  unfold asyncAttempt at h
  rcases Option.map_eq_some'.mp h with ⟨pd, hpd, hr⟩
  rw [← hr]
  exact getKey_setKey pd "url" url

/-- Every event in the trace of the synchronous retry loop is either an
invocation carrying exactly the synchronous request for this URL or a
sleep of exactly the configured retry delay. -/
lemma seqLoopF_trace (apiKey url : String) (env : Nat → HttpResult) (d m : Nat) :
    ∀ fuel attempts e, e ∈ (seqLoopF apiKey url env d m fuel attempts).2 →
      e = Event.call (seqRequest apiKey url) ∨ e = Event.sleep d := by
  intro fuel
  induction fuel with
  | zero =>
    intro a e h
    simp [seqLoopF] at h
  | succ n ih =>
    intro a e h
    by_cases ha : a < m
    · simp only [seqLoopF, if_pos ha] at h
      split at h
      · simp only [List.mem_singleton] at h
        left
        exact h
      · dsimp only at h
        rcases List.mem_cons.mp h with h1 | h2
        · left
          exact h1
        · rcases List.mem_append.mp h2 with h3 | h4
          · by_cases hb : a + 1 < m
            · rw [if_pos hb] at h3
              simp only [List.mem_singleton] at h3
              right
              exact h3
            · rw [if_neg hb] at h3
              simp at h3
          · exact ih (a + 1) e h4
    · simp [seqLoopF, ha] at h

/-- Every event in the trace of the concurrent retry loop is either an
invocation carrying exactly the asynchronous request for this URL or a
sleep of exactly the configured retry delay. -/
lemma asyncLoopF_trace (apiKey url : String) (env : Nat → HttpResult) (d m : Nat) :
    ∀ fuel attempts p e, e ∈ (asyncLoopF apiKey url env d m fuel attempts p).2 →
      e = Event.call (asyncRequest apiKey url) ∨ e = Event.sleep d := by
  intro fuel
  induction fuel with
  | zero =>
    intro a p e h
    simp [asyncLoopF] at h
  | succ n ih =>
    intro a p e h
    by_cases ha : a < m
    · simp only [asyncLoopF, if_pos ha] at h
      rcases List.mem_cons.mp h with h1 | h2
      · left
        exact h1
      · rcases List.mem_append.mp h2 with h3 | h4
        · by_cases hb : a + 1 < m
          · rw [if_pos hb] at h3
            simp only [List.mem_singleton] at h3
            right
            exact h3
          · rw [if_neg hb] at h3
            simp at h3
        · exact ih (a + 1) _ e h4
    · simp [asyncLoopF, ha] at h

/-- When every synchronous attempt fails, the retry loop performs exactly
one executor invocation per remaining attempt. -/
lemma seqLoopF_count (apiKey url : String) (env : Nat → HttpResult) (d m : Nat)
    (hfail : ∀ i, seqAttempt url (env i) = Option.none) :
    ∀ fuel attempts, m ≤ fuel + attempts →
      countCalls (seqLoopF apiKey url env d m fuel attempts).2 = m - attempts := by
  intro fuel
  induction fuel with
  | zero =>
    intro a hm
    have h0 : m - a = 0 := by omega
    simp [seqLoopF, countCalls, h0]
  | succ n ih =>
    intro a hm
    by_cases ha : a < m
    · have hrec := ih (a + 1) (by omega)
      simp only [seqLoopF, if_pos ha, hfail a]
      simp only [countCalls, countCalls_append, countCalls_sleepOpt, hrec]
      omega
    · have h0 : m - a = 0 := by omega
      simp [seqLoopF, ha, countCalls, h0]

/-- The concurrent retry loop always performs exactly one executor
invocation per remaining attempt, whatever the outcomes. -/
lemma asyncLoopF_count (apiKey url : String) (env : Nat → HttpResult) (d m : Nat) :
    ∀ fuel attempts p, m ≤ fuel + attempts →
      countCalls (asyncLoopF apiKey url env d m fuel attempts p).2 = m - attempts := by
  intro fuel
  induction fuel with
  | zero =>
    intro a p hm
    have h0 : m - a = 0 := by omega
    simp [asyncLoopF, countCalls, h0]
  | succ n ih =>
    intro a p hm
    by_cases ha : a < m
    · have hrec := ih (a + 1) (asyncAttempt url (env a)) (by omega)
      simp only [asyncLoopF, if_pos ha]
      simp only [countCalls, countCalls_append, countCalls_sleepOpt, hrec]
      omega
    · have h0 : m - a = 0 := by omega
      simp [asyncLoopF, ha, countCalls, h0]

/-- The value returned by the concurrent retry loop is the result of the
attempt executed last (or the incoming placeholder when no attempts
remain): each iteration overwrites the product with the current attempt. -/
lemma asyncLoopF_last (apiKey url : String) (env : Nat → HttpResult) (d m : Nat) :
    ∀ fuel attempts p, m ≤ fuel + attempts →
      (asyncLoopF apiKey url env d m fuel attempts p).1 =
        if attempts < m then asyncAttempt url (env (m - 1)) else p := by
  intro fuel
  induction fuel with
  | zero =>
    intro a p hm
    have ha : ¬ a < m := by omega
    simp [asyncLoopF, ha]
  | succ n ih =>
    intro a p hm
    by_cases ha : a < m
    · simp only [asyncLoopF, if_pos ha]
      rw [ih (a + 1) (asyncAttempt url (env a)) (by omega)]
      by_cases hb : a + 1 < m
      · rw [if_pos hb]
      · rw [if_neg hb]
        have hms : a = m - 1 := by omega
        rw [hms]
    · simp [asyncLoopF, ha]

/-- If the synchronous retry loop returns a record, that record came from
a successful attempt, hence carries the requested URL under its url key. -/
lemma seqLoopF_tag (apiKey url : String) (env : Nat → HttpResult) (d m : Nat) :
    ∀ fuel attempts r, (seqLoopF apiKey url env d m fuel attempts).1 = some r →
      getKey r "url" = some url := by
  intro fuel
  induction fuel with
  | zero =>
    intro a r h
    simp [seqLoopF] at h
  | succ n ih =>
    intro a r h
    by_cases ha : a < m
    · simp only [seqLoopF, if_pos ha] at h
      split at h
      · dsimp only at h
        rename_i product heq
        rw [show product = r from Option.some.inj h] at heq
        exact seqAttempt_tag url (env a) r heq
      · dsimp only at h
        exact ih (a + 1) r h
    · simp [seqLoopF, ha] at h

/-- If the concurrent retry loop returns a record and the incoming
placeholder is tagged or absent, the record carries the requested URL
under its url key. -/
lemma asyncLoopF_tag (apiKey url : String) (env : Nat → HttpResult) (d m : Nat) :
    ∀ fuel attempts p, (∀ s, p = some s → getKey s "url" = some url) →
      ∀ r, (asyncLoopF apiKey url env d m fuel attempts p).1 = some r →
        getKey r "url" = some url := by
  intro fuel
  induction fuel with
  | zero =>
    intro a p hp r h
    simp only [asyncLoopF] at h
    exact hp r h
  | succ n ih =>
    intro a p hp r h
    by_cases ha : a < m
    · simp only [asyncLoopF, if_pos ha] at h
      exact ih (a + 1) (asyncAttempt url (env a))
        (fun s hs => asyncAttempt_tag url (env a) s hs) r h
    · simp only [asyncLoopF, if_neg ha] at h
      exact hp r h

/-- Running the worker on a queue of URL jobs terminated by the close
sentinel: it emits exactly the per URL fetch results, in order, and stops
at the sentinel, leaving the remainder of the queue untouched. -/
lemma async_run (apiKey : String) (d m : Nat) :
    ∀ (jobs : List (String × (Nat → HttpResult)))
      (rest : List (Option (String × (Nat → HttpResult)))),
      async_get_details apiKey d m (List.map some jobs ++ Option.none :: rest) =
        (List.map (fun job => (async_get_details_for_url apiKey job.1 job.2 d m).1) jobs,
          rest) := by
  intro jobs
  induction jobs with
  | nil =>
    intro rest
    simp [async_get_details]
  | cons job tl ih =>
    intro rest
    simp [async_get_details, ih]

/-- The sequential batch keeps exactly the successful per URL results, in
order: it is the filterMap of the per URL retry loop over the jobs. -/
lemma get_details_eq (apiKey : String) (d m : Nat) :
    ∀ jobs : List (String × (Nat → HttpResult)),
      get_details apiKey d m jobs =
        List.filterMap (fun job => (seqFetchURL apiKey job.1 job.2 d m).1) jobs := by
  intro jobs
  induction jobs with
  | nil => simp [get_details]
  | cons job tl ih =>
    cases hres : (seqFetchURL apiKey job.1 job.2 d m).1 with
    | none => simp [get_details, hres, ih, List.filterMap_cons]
    | some p => simp [get_details, hres, ih, List.filterMap_cons]

/-- The length of a filterMap counts the inputs on which the function
returns a value. -/
lemma filterMap_length_countP {α β : Type} (f : α → Option β) :
    ∀ l : List α,
      (List.filterMap f l).length = List.countP (fun a => (f a).isSome) l := by
  intro l
  induction l with
  | nil => simp
  | cons x xs ih =>
    cases hx : f x with
    | none => simp [List.filterMap_cons, List.countP_cons, hx, ih]
    | some b => simp [List.filterMap_cons, List.countP_cons, hx, ih]

/-- One unfolding step of the concurrent retry loop when the guard holds
and further attempts remain: the trace starts with the call of this
attempt followed immediately by the retry sleep. -/
lemma asyncLoopF_head (apiKey url : String) (env : Nat → HttpResult)
    (d m fuel a : Nat) (p : Option Record) (ha : a < m) (hb : a + 1 < m) :
    (asyncLoopF apiKey url env d m (fuel + 1) a p).2 =
      Event.call (asyncRequest apiKey url) :: Event.sleep d ::
        (asyncLoopF apiKey url env d m fuel (a + 1) (asyncAttempt url (env a))).2 := by
  simp only [asyncLoopF]
  rw [if_pos ha]
  rw [if_pos hb]
  rfl

/-- Claim C1: concurrent accounting.  For every queue holding N URL jobs
followed by the close sentinel, the worker enqueues exactly one item per
dequeued URL — the record or absence marker produced by the per URL
fetch — so exactly N outputs are produced, in order, and no output is
produced for the sentinel itself. -/
theorem concurrent_accounting (apiKey : String) (retryDelay maxRetries : Nat)
    (jobs : List (String × (Nat → HttpResult)))
    (rest : List (Option (String × (Nat → HttpResult))))
    (hm : 1 ≤ maxRetries) :
    async_get_details apiKey retryDelay maxRetries
        (List.map some jobs ++ Option.none :: rest) =
      (List.map (fun job =>
        (async_get_details_for_url apiKey job.1 job.2 retryDelay maxRetries).1) jobs,
        rest) ∧
    (async_get_details apiKey retryDelay maxRetries
        (List.map some jobs ++ Option.none :: rest)).1.length = jobs.length := by
  refine ⟨async_run apiKey retryDelay maxRetries jobs rest, ?_⟩
  rw [async_run apiKey retryDelay maxRetries jobs rest]
  simp

/-- Concrete run for claim C1: one URL job, then the sentinel, yields
exactly one output (here the absence marker) and stops. -/
theorem concurrent_accounting_witness :
    async_get_details "k" 0 1
        (List.map some [(("https://a.test" : String), fun _ => HttpResult.transportError)] ++
          Option.none :: []) =
      ([Option.none], []) ∧
    (async_get_details "k" 0 1
        (List.map some [(("https://a.test" : String), fun _ => HttpResult.transportError)] ++
          Option.none :: [])).1.length = 1 := by
  have h := concurrent_accounting "k" 0 1
    [("https://a.test", fun _ => HttpResult.transportError)] [] (by decide)
  exact ⟨h.1, h.2⟩

/-- Claim C2: retry bound.  For any URL whose attempts always fail, the
single shot executor is invoked exactly maxRetries times — no more, no
fewer — in the sequential path and in the concurrent path alike, for
every maxRetries at least 1. -/
theorem retry_bound (apiKey url : String) (env : Nat → HttpResult)
    (retryDelay maxRetries : Nat) (hm : 1 ≤ maxRetries)
    (hseq : ∀ i, seqAttempt url (env i) = Option.none)
    (hasync : ∀ i, asyncAttempt url (env i) = Option.none) :
    countCalls (seqFetchURL apiKey url env retryDelay maxRetries).2 = maxRetries ∧
    countCalls (async_get_details_for_url apiKey url env retryDelay maxRetries).2 =
      maxRetries := by
  constructor
  · have h := seqLoopF_count apiKey url env retryDelay maxRetries hseq maxRetries 0
      (by omega)
    simpa [seqFetchURL] using h
  · have h := asyncLoopF_count apiKey url env retryDelay maxRetries maxRetries 0
      Option.none (by omega)
    simpa [async_get_details_for_url] using h

/-- Concrete run for claim C2: with maxRetries = 2 and a wire that always
fails, both paths invoke the executor exactly twice. -/
theorem retry_bound_witness :
    countCalls (seqFetchURL "k" "https://a.test"
      (fun _ => HttpResult.transportError) 0 2).2 = 2 ∧
    countCalls (async_get_details_for_url "k" "https://a.test"
      (fun _ => HttpResult.transportError) 0 2).2 = 2 :=
  retry_bound "k" "https://a.test" (fun _ => HttpResult.transportError) 0 2
    (by decide) (fun i => rfl) (fun i => rfl)

/-- Claim C3: sequential accounting.  get_details returns exactly the
successful per URL results (the filterMap of the retry loop over the
jobs); its length counts the URLs that eventually succeed within the
retry budget, URLs whose attempts are exhausted are omitted entirely, and
the output is never longer than the input. -/
theorem sequential_accounting (apiKey : String) (retryDelay maxRetries : Nat)
    (jobs : List (String × (Nat → HttpResult))) :
    get_details apiKey retryDelay maxRetries jobs =
      List.filterMap (fun job =>
        (seqFetchURL apiKey job.1 job.2 retryDelay maxRetries).1) jobs ∧
    (get_details apiKey retryDelay maxRetries jobs).length =
      List.countP (fun job =>
        ((seqFetchURL apiKey job.1 job.2 retryDelay maxRetries).1).isSome) jobs ∧
    (get_details apiKey retryDelay maxRetries jobs).length ≤ jobs.length := by
  refine ⟨get_details_eq apiKey retryDelay maxRetries jobs, ?_, ?_⟩
  · rw [get_details_eq apiKey retryDelay maxRetries jobs]
    exact filterMap_length_countP _ jobs
  · rw [get_details_eq apiKey retryDelay maxRetries jobs]
    exact List.length_filterMap_le _ jobs

/-- Claim C4: idempotent tagging.  Every record returned by the
sequential per URL loop, and every record produced by the concurrent per
URL fetch, carries the requested URL under its url key; the injection
overwrites whatever the response body held for that key. -/
theorem idempotent_tagging (apiKey url : String) (env : Nat → HttpResult)
    (retryDelay maxRetries : Nat) (r : Record)
    (h : (seqFetchURL apiKey url env retryDelay maxRetries).1 = some r ∨
      (async_get_details_for_url apiKey url env retryDelay maxRetries).1 = some r) :
    getKey r "url" = some url ∧
    ∀ body : Record, getKey (setKey body "url" url) "url" = some url := by
  constructor
  · rcases h with h | h
    · exact seqLoopF_tag apiKey url env retryDelay maxRetries maxRetries 0 r h
    · exact asyncLoopF_tag apiKey url env retryDelay maxRetries maxRetries 0
        Option.none (fun s hs => Option.noConfusion hs) r h
  · intro body
    exact getKey_setKey body "url" url

/-- Concrete run for claim C4: a 200 response whose body already holds a
conflicting url key still comes back tagged with the requested URL. -/
theorem idempotent_tagging_witness :
    getKey (setKey [("url", "evil"), ("name", "x")] "url" "https://a.test") "url" =
      some "https://a.test" :=
  (idempotent_tagging "k" "https://a.test"
    (fun _ => HttpResult.response 200 (some [("url", "evil"), ("name", "x")])) 0 1
    (setKey [("url", "evil"), ("name", "x")] "url" "https://a.test")
    (Or.inl (by decide))).1

/-- Claim C5 counterexample: a response with the 2xx status 201 and a
parseable body is NOT treated as a success by the sequential path, which
accepts exactly status 200, while the concurrent path accepts it — so the
claim that any 2xx status is a success in both fetch modes is false. -/
theorem twoxx_success_cex :
    seqAttempt "https://a.test" (HttpResult.response 201 (some [("name", "x")])) =
      Option.none ∧
    (asyncAttempt "https://a.test"
      (HttpResult.response 201 (some [("name", "x")]))).isSome = true := by
  decide

/-- Claim C5 as amended: sequential success means status exactly 200 with
a body parsing as a record; concurrent success means any status below 400
with a body parsing as a record; transport errors, parse failures and all
other statuses are retryable failures in both paths. -/
theorem success_criterion_amended (url : String) (status : Nat)
    (body : Option Record) :
    ((seqAttempt url (HttpResult.response status body)).isSome = true ↔
      (status = 200 ∧ body.isSome = true)) ∧
    ((asyncAttempt url (HttpResult.response status body)).isSome = true ↔
      (status < 400 ∧ body.isSome = true)) ∧
    seqAttempt url HttpResult.transportError = Option.none ∧
    asyncAttempt url HttpResult.transportError = Option.none := by
  refine ⟨?_, ?_, rfl, rfl⟩
  · cases body with
    | none => by_cases hs : status = 200 <;> simp [seqAttempt, hs]
    | some pd => by_cases hs : status = 200 <;> simp [seqAttempt, hs]
  · cases body with
    | none => by_cases hs : status < 400 <;> simp [asyncAttempt, aiohttp_post, hs]
    | some pd => by_cases hs : status < 400 <;> simp [asyncAttempt, aiohttp_post, hs]

/-- Claim C6 counterexample: the concurrent path issues its HTTP call
with no explicit timeout — its request carries no 10 unit timeout — so
the claim that every call in both paths is made with the bounded 10 unit
timeout is false. -/
theorem per_call_timeout_cex :
    (asyncRequest "k" "https://a.test").timeout ≠ some requestsTimeout ∧
    Event.call (asyncRequest "k" "https://a.test") ∈
      (async_get_details_for_url "k" "https://a.test"
        (fun _ => HttpResult.transportError) 0 1).2 := by
  decide

/-- Claim C6 as amended: every call issued by the sequential path carries
the fixed 10 unit network timeout, independent of the retry delay, and a
timed out call (a transport error) is a failure consuming one attempt;
the concurrent path, however, issues its calls with no explicit timeout
at all. -/
theorem per_call_timeout_amended (apiKey url : String) (env : Nat → HttpResult)
    (retryDelay maxRetries : Nat) :
    (∀ e ∈ (seqFetchURL apiKey url env retryDelay maxRetries).2,
      ∀ req, e = Event.call req → req.timeout = some requestsTimeout) ∧
    (∀ e ∈ (async_get_details_for_url apiKey url env retryDelay maxRetries).2,
      ∀ req, e = Event.call req → req.timeout = Option.none) ∧
    requestsTimeout = 10 ∧
    seqAttempt url HttpResult.transportError = Option.none ∧
    asyncAttempt url HttpResult.transportError = Option.none := by
  refine ⟨?_, ?_, rfl, rfl, rfl⟩
  · intro e he req hreq
    subst hreq
    rcases seqLoopF_trace apiKey url env retryDelay maxRetries maxRetries 0 _ he
      with h | h
    · injection h with h2
      rw [h2]
      rfl
    · simp at h
  · intro e he req hreq
    subst hreq
    rcases asyncLoopF_trace apiKey url env retryDelay maxRetries maxRetries 0
      Option.none _ he with h | h
    · injection h with h2
      rw [h2]
      rfl
    · simp at h

/-- Concrete run for claim C6: the one call of a failing sequential run
carries the 10 unit timeout. -/
theorem per_call_timeout_witness :
    (seqRequest "k" "https://a.test").timeout = some requestsTimeout :=
  (per_call_timeout_amended "k" "https://a.test"
    (fun _ => HttpResult.transportError) 0 1).1
    (Event.call (seqRequest "k" "https://a.test")) (by decide)
    (seqRequest "k" "https://a.test") rfl

/-- Claim C7 counterexample: a worker that dequeues the close sentinel
exits without re-enqueueing it and without producing anything: on a queue
holding only the sentinel, the run consumes it and leaves both queues
empty, so no sentinel remains for any co-worker to observe. -/
theorem sentinel_propagation_cex :
    async_get_details "k" 10 1 [Option.none] =
      (([] : List (Option Record)),
        ([] : List (Option (String × (Nat → HttpResult))))) ∧
    ¬ Option.none ∈ (async_get_details "k" 10 1 [Option.none]).2 := by
  constructor
  · rfl
  · intro hmem
    simp [async_get_details] at hmem

/-- Claim C7 as amended: a worker that dequeues the close sentinel
consumes it and exits immediately, neither re-enqueueing it nor putting
any other item on either queue: after the run the input queue holds
exactly the items that followed the sentinel, so a sentinel remains for a
co-worker only if one was queued separately. -/
theorem sentinel_consumed_amended (apiKey : String) (retryDelay maxRetries : Nat)
    (jobs : List (String × (Nat → HttpResult)))
    (rest : List (Option (String × (Nat → HttpResult))))
    (hm : 1 ≤ maxRetries) :
    (async_get_details apiKey retryDelay maxRetries
        (List.map some jobs ++ Option.none :: rest)).2 = rest ∧
    ((Option.none ∈ (async_get_details apiKey retryDelay maxRetries
        (List.map some jobs ++ Option.none :: rest)).2) ↔ Option.none ∈ rest) := by
  have h := async_run apiKey retryDelay maxRetries jobs rest
  constructor
  · rw [h]
  · rw [h]

/-- Concrete run for claim C7: consuming a lone sentinel leaves the input
queue empty. -/
theorem sentinel_consumed_witness :
    (async_get_details "k" 0 1 [Option.none]).2 = [] :=
  (sentinel_consumed_amended "k" 0 1 [] [] (by decide)).1

/-- Claim C8: the per host concurrency limit is stored by the constructor
but never read by any fetching code: two clients differing only in
asyncLimitPerHost behave identically on every queue, so the configured
limit (default 5) is not enforced anywhere in the fetching code. -/
theorem async_limit_unused (apiKey : String) (maxRetries retryDelay l1 l2 : Nat)
    (queueIn : List (Option (String × (Nat → HttpResult))))
    (hm : 1 ≤ maxRetries) :
    (ZyteAPIClient.mk apiKey maxRetries retryDelay l1).asyncGetDetails queueIn =
      (ZyteAPIClient.mk apiKey maxRetries retryDelay l2).asyncGetDetails queueIn ∧
    (ZyteAPIClient.mk apiKey maxRetries retryDelay l1).asyncLimitPerHost = l1 :=
  ⟨rfl, rfl⟩

/-- Concrete run for claim C8: limits 1 and 1000 give byte for byte the
same behavior on a queue with one URL and the sentinel. -/
theorem async_limit_unused_witness :
    (ZyteAPIClient.mk "k" 1 0 1).asyncGetDetails
        [some ("https://a.test", fun _ => HttpResult.transportError), Option.none] =
      (ZyteAPIClient.mk "k" 1 0 1000).asyncGetDetails
        [some ("https://a.test", fun _ => HttpResult.transportError), Option.none] ∧
    (ZyteAPIClient.mk "k" 1 0 1).asyncLimitPerHost = 1 :=
  async_limit_unused "k" 1 0 1 1000
    [some ("https://a.test", fun _ => HttpResult.transportError), Option.none]
    (by decide)

/-- Claim C9: in the concurrent path a successful attempt advances the
attempt counter instead of breaking the loop — the executor is invoked
once per configured attempt even when the first attempt succeeds — and
when attempts remain the retry delay fires right after the successful
call, before the result is emitted. -/
theorem async_success_advances_counter (apiKey url : String)
    (env : Nat → HttpResult) (retryDelay maxRetries : Nat)
    (hsucc : (asyncAttempt url (env 0)).isSome = true) (hm : 2 ≤ maxRetries) :
    countCalls (async_get_details_for_url apiKey url env retryDelay maxRetries).2 =
      maxRetries ∧
    ∃ t, (async_get_details_for_url apiKey url env retryDelay maxRetries).2 =
      Event.call (asyncRequest apiKey url) :: Event.sleep retryDelay :: t := by
  constructor
  · have h := asyncLoopF_count apiKey url env retryDelay maxRetries maxRetries 0
      Option.none (by omega)
    simpa [async_get_details_for_url] using h
  · cases maxRetries with
    | zero => omega
    | succ m1 =>
      refine ⟨(asyncLoopF apiKey url env retryDelay (m1 + 1) m1 (0 + 1)
        (asyncAttempt url (env 0))).2, ?_⟩
      show (asyncLoopF apiKey url env retryDelay (m1 + 1) (m1 + 1) 0 Option.none).2 = _
      rw [asyncLoopF_head apiKey url env retryDelay (m1 + 1) m1 0 Option.none
        (by omega) (by omega)]

/-- Concrete run for claim C9: maxRetries = 2 with a wire that always
answers 200 still makes two calls and sleeps between them. -/
theorem async_success_advances_counter_witness :
    countCalls (async_get_details_for_url "k" "https://a.test"
        (fun _ => HttpResult.response 200 (some [("name", "x")])) 7 2).2 = 2 ∧
    ∃ t, (async_get_details_for_url "k" "https://a.test"
        (fun _ => HttpResult.response 200 (some [("name", "x")])) 7 2).2 =
      Event.call (asyncRequest "k" "https://a.test") :: Event.sleep 7 :: t :=
  async_success_advances_counter "k" "https://a.test"
    (fun _ => HttpResult.response 200 (some [("name", "x")])) 7 2
    (by decide) (by decide)

/-- Claim C10: last attempt wins in the concurrent path.  The per URL
loop resets its product at the start of every iteration and never breaks
early, so for maxRetries at least 1 the value returned is exactly the
result of the final attempt; earlier outcomes are discarded. -/
theorem async_last_attempt_wins (apiKey url : String) (env : Nat → HttpResult)
    (retryDelay maxRetries : Nat) (hm : 1 ≤ maxRetries) :
    (async_get_details_for_url apiKey url env retryDelay maxRetries).1 =
      asyncAttempt url (env (maxRetries - 1)) := by
  have h := asyncLoopF_last apiKey url env retryDelay maxRetries maxRetries 0
    Option.none (by omega)
  rw [if_pos (by omega : 0 < maxRetries)] at h
  exact h

/-- Concrete run for claim C10: a success on attempt 0 followed by a
failure on the final attempt 1 returns the absence marker, discarding the
earlier successful record. -/
theorem async_last_attempt_wins_witness :
    (asyncAttempt "https://a.test"
        (HttpResult.response 200 (some [("name", "x")]))).isSome = true ∧
    (async_get_details_for_url "k" "https://a.test"
        (fun i => if i = 0 then HttpResult.response 200 (some [("name", "x")])
          else HttpResult.transportError) 0 2).1 = Option.none := by
  constructor
  · decide
  · have h := async_last_attempt_wins "k" "https://a.test"
      (fun i => if i = 0 then HttpResult.response 200 (some [("name", "x")])
        else HttpResult.transportError) 0 2 (by decide)
    rw [h]
    rfl

end Zyte
